import Mathlib

/-!
Verification development for the anhelo HLS streaming pipeline.

Shallow embedding of:
  * the simple H.264 parameter-set/slice state machine
    (src/unnamed/part_003: read_ue_golomb, parse_sps, parse_pps, simple_h264_decode);
  * the Annex-B two-pass NAL extraction of hls_segment_callback (src/src/main.c);
  * the TS-vs-raw segment routing decision of hls_segment_callback (src/src/main.c);
  * the playlist parser hls_parse_playlist_from_memory (src/unnamed/part_005);
  * the variant selection of pick_lowest_variant_from_master (src/src/resolver/twitch.c);
  * the frame pacing / drop policy of the playback loops
    (src/src/main.c and the src/unnamed/part_004 variant);
  * the playlist refresh loop hls_process_stream (src/src/dmux/hls/hls_demuxer.c).

Modelling conventions: bytes are Nat values below 256 read with List.getD
(the C code never reads out of bounds on the paths embedded here, so the
default value is irrelevant); machine arithmetic is Nat with explicit
`% 2 ^ 32` where uint32_t overflow matters; heap allocation (malloc /
realloc / strdup) is modelled as succeeding; network fetches and the
segment-consumer callback are oracles passed in as parameters.
-/

/-! ### Simple H.264 decoder (src/unnamed/part_003) -/

/-- One bit of the bitstream, as read by read_ue_golomb:
`(ptr[bit_pos / 8] >> (7 - bit_pos % 8)) & 1` with `ptr = data + base`. -/
def golombBit (data : List Nat) (base pos : Nat) : Nat :=
  (data.getD (base + pos / 8) 0 >>> (7 - pos % 8)) &&& 1

/-- The leading-zero counting loop of read_ue_golomb: counts zero bits from
bit position `pos`, stopping at a one bit or when `fuel` (the remaining
`bits_left - pos` budget) runs out. -/
def golombZerosAux (data : List Nat) (base : Nat) : Nat → Nat → Nat
  | 0, _ => 0
  | fuel + 1, pos =>
    if golombBit data base pos = 1 then 0
    else golombZerosAux data base fuel (pos + 1) + 1

/-- The value-reading loop of read_ue_golomb: reads `k` bits starting at bit
position `pos`, accumulating `value = (value << 1) | bit` in uint32. -/
def golombValueAux (data : List Nat) (base : Nat) : Nat → Nat → Nat → Nat
  | 0, _, acc => acc
  | k + 1, pos, acc =>
    golombValueAux data base k (pos + 1) ((acc * 2 + golombBit data base pos) % 2 ^ 32)

/-- read_ue_golomb from src/unnamed/part_003. Input: byte list, current byte
offset `base` (the `*data` pointer) and `bitsLeft` (the `*bits_left` budget).
Returns (value, new offset, new bitsLeft). On `bits_left == 0` or on the
`bit_pos + leading_zeros + 1 > *bits_left` check the C code returns 0 without
updating the pointer or the budget. `(1 << leading_zeros) - 1 + value` is
modelled as `(2 ^ lz - 1 + value) % 2 ^ 32` (the C expression is undefined
behaviour for `lz >= 31`; no theorem below depends on the value). -/
def read_ue_golomb (data : List Nat) (base bitsLeft : Nat) : Nat × Nat × Nat :=
  if bitsLeft = 0 then (0, base, bitsLeft)
  else
    let lz := golombZerosAux data base bitsLeft 0
    if bitsLeft < lz + lz + 1 then (0, base, bitsLeft)
    else
      let v := golombValueAux data base lz (lz + 1) 0
      let bitPos := lz + lz + 1
      ((2 ^ lz - 1 + v) % 2 ^ 32, base + bitPos / 8, bitsLeft - bitPos)

/-- The decoder state of struct simple_h264_decoder (src/unnamed/part_003);
the frame buffer is not modelled (its allocation is assumed to succeed). -/
structure SimpleH264Decoder where
  width : Nat
  height : Nat
  profile_idc : Nat
  level_idc : Nat
  sps_valid : Bool
  pps_valid : Bool
deriving DecidableEq, Repr

/-- simple_h264_create: calloc produces the all-zero decoder state. -/
def simple_h264_create : SimpleH264Decoder :=
  { width := 0, height := 0, profile_idc := 0, level_idc := 0,
    sps_valid := false, pps_valid := false }

/-- parse_sps from src/unnamed/part_003. Returns the updated decoder and the
C return value (true = 1, false = 0). The pointer starts at `data + 1` (NAL
header skipped), profile is `ptr[0]`, level is `ptr[2]`, then `ptr += 3` and
`bits_left = (size - 1) * 8 - 24`. Baseline profile (66) walks the bitstream
to the width/height fields (in uint32 arithmetic); other profiles fall back
to 1920x1080. -/
def parse_sps (dec : SimpleH264Decoder) (data : List Nat) : SimpleH264Decoder × Bool :=
  if data.length < 4 then (dec, false)
  else
    let dec1 := { dec with profile_idc := data.getD 1 0, level_idc := data.getD 3 0 }
    let bl0 := (data.length - 1) * 8 - 24
    let r1 := read_ue_golomb data 4 bl0
    if dec1.profile_idc = 66 then
      let r2 := read_ue_golomb data r1.2.1 r1.2.2
      let r3 := read_ue_golomb data r2.2.1 r2.2.2
      let p4 := if r3.1 = 0 then (read_ue_golomb data r3.2.1 r3.2.2).2 else r3.2
      let r5 := read_ue_golomb data p4.1 p4.2
      let p6 :=
        if 0 < r5.2.2 then
          (r5.2.1 + (if r5.2.2 % 8 = 0 then 0 else 1), r5.2.2 - r5.2.2 % 8)
        else r5.2
      let r7 := read_ue_golomb data p6.1 p6.2
      let r8 := read_ue_golomb data r7.2.1 r7.2.2
      ({ dec1 with width := (r7.1 + 1) * 16 % 2 ^ 32,
                   height := (r8.1 + 1) * 16 % 2 ^ 32,
                   sps_valid := true }, true)
    else
      ({ dec1 with width := 1920, height := 1080, sps_valid := true }, true)

/-- parse_pps from src/unnamed/part_003: ignores the payload, marks the PPS
valid, always returns 1. -/
def parse_pps (dec : SimpleH264Decoder) : SimpleH264Decoder × Bool :=
  ({ dec with pps_valid := true }, true)

/-- The simple_h264_result_t codes. -/
inductive SimpleH264Result where
  | ok
  | error
  | needMoreData
  | frameReady
  | headersReady
  | paramSetError
deriving DecidableEq, Repr

/-- simple_h264_get_nal_type: `data[0] & 0x1F`. -/
def simple_h264_get_nal_type (data : List Nat) : Nat :=
  data.headD 0 &&& 0x1F

/-- simple_h264_decode from src/unnamed/part_003. `frameProvided` models the
`frame` out-pointer being non-null; the NULL decoder/data guard collapses to
the `data_size == 0` test (the caller always passes a live decoder, and an
empty list stands for no data). The frame-buffer malloc in the slice branch
is modelled as succeeding, so a slice with both parameter sets valid,
a frame pointer and positive dimensions yields frameReady, and otherwise
falls through to ok exactly as the C code does. -/
def simple_h264_decode (dec : SimpleH264Decoder) (data : List Nat) (frameProvided : Bool) :
    SimpleH264Decoder × SimpleH264Result :=
  if data.length = 0 then (dec, .error)
  else
    let t := simple_h264_get_nal_type data
    if t = 7 then
      let r := parse_sps dec data
      (r.1, if r.2 then .headersReady else .paramSetError)
    else if t = 8 then
      let r := parse_pps dec
      (r.1, if r.2 then .headersReady else .paramSetError)
    else if t = 5 ∨ t = 1 then
      if dec.sps_valid ∧ dec.pps_valid then
        if frameProvided ∧ 0 < dec.width ∧ 0 < dec.height then (dec, .frameReady)
        else (dec, .ok)
      else (dec, .paramSetError)
    else (dec, .ok)

/-! ### Annex-B NAL extraction (hls_segment_callback, src/src/main.c)

The same scan appears three times in hls_segment_callback (TS→PES Annex-B,
final TS flush, and the raw non-TS fallback); the loops are textually
identical, so one embedding covers all three sites. -/

/-- One probe of the start-code search loop at position `p`: a 3-byte code
`00 00 01` yields payload start `p + 3`; otherwise, if `p + 4 < end`, a
4-byte code `00 00 00 01` yields `p + 4`. -/
def scPayloadStart (buf : List Nat) (p : Nat) : Option Nat :=
  if buf.getD p 0 = 0 ∧ buf.getD (p + 1) 0 = 0 ∧ buf.getD (p + 2) 0 = 1 then some (p + 3)
  else if p + 4 < buf.length ∧ buf.getD p 0 = 0 ∧ buf.getD (p + 1) 0 = 0 ∧
      buf.getD (p + 2) 0 = 0 ∧ buf.getD (p + 3) 0 = 1 then some (p + 4)
  else none

/-- The start-code search loop: advances `p` while `p + 3 < end` until a
start code is found, returning the payload start index after the code. -/
def findStart (buf : List Nat) : Nat → Nat → Option Nat
  | 0, _ => none
  | fuel + 1, p =>
    if p + 3 < buf.length then
      match scPayloadStart buf p with
      | some s => some s
      | none => findStart buf fuel (p + 1)
    else none

/-- The boundary test of the next-start-code loop at position `q`. -/
def nalBoundary (buf : List Nat) (q : Nat) : Prop :=
  (buf.getD q 0 = 0 ∧ buf.getD (q + 1) 0 = 0 ∧ buf.getD (q + 2) 0 = 1) ∨
  (q + 4 < buf.length ∧ buf.getD q 0 = 0 ∧ buf.getD (q + 1) 0 = 0 ∧
    buf.getD (q + 2) 0 = 0 ∧ buf.getD (q + 3) 0 = 1)

instance (buf : List Nat) (q : Nat) : Decidable (nalBoundary buf q) := by
  unfold nalBoundary
  exact inferInstance

/-- The next-start-code loop: advances `next` while `next + 3 < end` and no
start code begins at `next`. Note that it can stop as early as `end - 3`
even when no further start code exists, truncating the final NAL. -/
def findNext (buf : List Nat) : Nat → Nat → Nat
  | 0, q => q
  | fuel + 1, q =>
    if q + 3 < buf.length then
      if nalBoundary buf q then q else findNext buf fuel (q + 1)
    else q

/-- The outer scan loop shared by both passes: collects the NAL byte slices
in buffer order, silently dropping zero-length NALs. -/
def scanNalsAux (buf : List Nat) : Nat → Nat → List (List Nat)
  | 0, _ => []
  | fuel + 1, pos =>
    if pos + 3 < buf.length then
      match findStart buf buf.length pos with
      | none => []
      | some s =>
        let nxt := findNext buf buf.length s
        let nal := (buf.drop s).take (nxt - s)
        if 0 < nal.length then nal :: scanNalsAux buf fuel nxt
        else scanNalsAux buf fuel nxt
    else []

/-- All NAL slices found by one scan over `buf` (each pass performs exactly
this scan; pass 1 keeps parameter sets, pass 2 keeps the rest). -/
def annexBScanNals (buf : List Nat) : List (List Nat) :=
  scanNalsAux buf (buf.length + 1) 0

/-- get_nal_unit_type on an extracted slice: first byte `& 0x1F`. -/
def nalUnitType (nal : List Nat) : Nat :=
  nal.headD 0 &&& 0x1F

/-- is_parameter_set: SPS (7) or PPS (8). -/
def isParamSetNal (nal : List Nat) : Bool :=
  nalUnitType nal == 7 || nalUnitType nal == 8

/-- The order in which the two-pass extraction hands NAL units to
process_h264_nal_unit: pass 1 emits only parameter sets, pass 2 emits the
remaining types. (Pass 2 of the raw fallback stops early once a frame is
displayed; that exit is not reached by the inputs considered here, which
contain no slice NAL.) -/
def twoPassNalDispatch (buf : List Nat) : List (List Nat) :=
  (annexBScanNals buf).filter isParamSetNal ++
    (annexBScanNals buf).filter (fun n => !isParamSetNal n)

/-! ### Segment routing: MPEG-TS vs raw Annex-B (hls_segment_callback) -/

/-- The sync-offset probe of hls_segment_callback: offset `off` qualifies
when three packets spaced 188 bytes apart, starting at `off`, fit in the
buffer and all begin with 0x47. -/
def tsSyncPred (seg : List Nat) (off : Nat) : Bool :=
  decide (off + 188 * 3 ≤ seg.length ∧ seg.getD off 0 = 0x47 ∧
    seg.getD (off + 188) 0 = 0x47 ∧ seg.getD (off + 376) 0 = 0x47)

/-- The sync-offset scan: the first qualifying offset below 188, defaulting
to 0 when none qualifies (`if (sync_offset < 0) sync_offset = 0`). -/
def tsSyncOffset (seg : List Nat) : Nat :=
  match (List.range 188).find? (tsSyncPred seg) with
  | some off => off
  | none => 0

/-- Whether the three-packet sync heuristic actually holds at some offset
below 188 (the scan found a qualifying offset). -/
def tsSyncFound (seg : List Nat) : Bool :=
  ((List.range 188).find? (tsSyncPred seg)).isSome

/-- How hls_segment_callback routes a segment buffer once the whole-buffer
decode produced no frame. -/
inductive SegmentRoute where
  | tsDemux (syncOffset : Nat)
  | rawAnnexB
deriving DecidableEq, Repr

/-- The routing decision of hls_segment_callback: the TS demux path is
entered iff `size >= 188 && seg[0] == 0x47`; inside it the sync-offset scan
picks the packet alignment (defaulting to 0). Everything else falls to the
raw Annex-B extraction. -/
def segmentRoute (seg : List Nat) : SegmentRoute :=
  if 188 ≤ seg.length ∧ seg.getD 0 0 = 0x47 then .tsDemux (tsSyncOffset seg)
  else .rawAnnexB

/-! ### Playlist parser (hls_parse_playlist_from_memory, src/unnamed/part_005) -/

/-- isspace as used by trim (C locale). -/
def cIsSpace (c : Char) : Bool :=
  c = ' ' || c = '\t' || c = '\n' || c = '\x0b' || c = '\x0c' || c = '\r'

/-- trim from src/unnamed/part_005: strip leading and trailing whitespace. -/
def trimChars (s : List Char) : List Char :=
  ((s.dropWhile cIsSpace).reverse.dropWhile cIsSpace).reverse

/-- hls_playlist_type_t. -/
inductive HlsPlaylistType where
  | unknown
  | master
  | media
deriving DecidableEq, Repr

/-- The duration slot of the parser: `double current_duration = 0.0`, later
`atof(trimmed + 8)`. The atof conversion to double is not modelled (floating
point); the recorded text determines the value, and no claim below depends
on it. -/
inductive HlsDuration where
  | zero
  | ofText (t : List Char)
deriving DecidableEq, Repr

/-- One parsed hls_segment_t (url and duration; key fields stay unset). -/
structure HlsParsedSegment where
  url : List Char
  duration : HlsDuration
deriving DecidableEq, Repr

/-- hls_playlist_t as touched by the parser. -/
structure HlsPlaylist where
  type : HlsPlaylistType
  base_url : Option (List Char)
  segments : List HlsParsedSegment
  variants : List (List Char)
deriving DecidableEq, Repr

/-- hls_playlist_create: the calloc-fresh playlist. -/
def hls_playlist_create : HlsPlaylist :=
  { type := .unknown, base_url := none, segments := [], variants := [] }

/-- The parser's running state: the playlist under construction plus the
local current_duration. -/
structure ParseAcc where
  pl : HlsPlaylist
  curDuration : HlsDuration
deriving DecidableEq, Repr

/-- Literal tag text as a character list. -/
def tagChars (s : String) : List Char :=
  s.toList

/-- The per-line body of hls_parse_playlist_from_memory: trim, then the
strncmp chain, then the URI branch (`trimmed[0] != '#' && strlen > 0`),
appending a variant when the playlist is already master and a segment
otherwise. Allocation failures (strdup / realloc) are modelled as absent. -/
def parsePlaylistLine (acc : ParseAcc) (line : List Char) : ParseAcc :=
  let t := trimChars line
  if (tagChars "#EXTM3U").isPrefixOf t then acc
  else if (tagChars "#EXT-X-STREAM-INF:").isPrefixOf t then
    { acc with pl := { acc.pl with type := .master } }
  else if (tagChars "#EXTINF:").isPrefixOf t then
    { acc with pl := { acc.pl with type := .media }, curDuration := .ofText (t.drop 8) }
  else if (tagChars "#EXT-X-TARGETDURATION:").isPrefixOf t then
    { acc with pl := { acc.pl with type := .media } }
  else if (tagChars "#EXT-X-MEDIA-SEQUENCE:").isPrefixOf t then
    { acc with pl := { acc.pl with type := .media } }
  else
    match t with
    | [] => acc
    | c :: _ =>
      if c = '#' then acc
      else if acc.pl.type = .master then
        { acc with pl := { acc.pl with variants := acc.pl.variants ++ [t] } }
      else
        { acc with pl := { acc.pl with segments := acc.pl.segments ++ [⟨t, acc.curDuration⟩] } }

/-- The newline splitting of the parser loop (`strchr(line, '\n')`, last line
may lack a newline; a terminating newline produces no extra line to process). -/
def splitLinesAux : Nat → List Char → List (List Char)
  | 0, _ => []
  | _, [] => []
  | fuel + 1, cs =>
    let line := cs.takeWhile (fun c => c ≠ '\n')
    match cs.dropWhile (fun c => c ≠ '\n') with
    | [] => [line]
    | _ :: rest => line :: splitLinesAux fuel rest

/-- Split playlist text into the lines the C loop visits. -/
def splitLines (cs : List Char) : List (List Char) :=
  splitLinesAux (cs.length + 1) cs

/-- hls_error_t. -/
inductive HlsError where
  | ok
  | memory
  | network
  | parse
  | io
deriving DecidableEq, Repr

/-- hls_parse_playlist_from_memory (src/unnamed/part_005). The `data` and
`playlist` arguments are Options so the C NULL checks are representable:
either NULL yields HLS_ERROR_PARSE. Otherwise base_url (when non-NULL) is
copied into the playlist and every line is processed; with allocation
modelled as succeeding the function returns HLS_OK on all non-NULL inputs. -/
def hls_parse_playlist_from_memory (data : Option (List Char)) (base_url : Option (List Char))
    (playlist : Option HlsPlaylist) : HlsError × Option HlsPlaylist :=
  match data, playlist with
  | none, pl => (.parse, pl)
  | some _, none => (.parse, none)
  | some text, some pl =>
    let pl1 :=
      match base_url with
      | some b => { pl with base_url := some b }
      | none => pl
    let acc := (splitLines text).foldl parsePlaylistLine { pl := pl1, curDuration := .zero }
    (.ok, some acc.pl)

/-- Whether a line (after trim) is the tag that sets kind = Master. -/
def lineSetsMaster (line : List Char) : Bool :=
  (tagChars "#EXT-X-STREAM-INF:").isPrefixOf (trimChars line)

/-- Whether a line (after trim) is one of the tags that set kind = Media. -/
def lineSetsMedia (line : List Char) : Bool :=
  (tagChars "#EXTINF:").isPrefixOf (trimChars line) ||
  (tagChars "#EXT-X-TARGETDURATION:").isPrefixOf (trimChars line) ||
  (tagChars "#EXT-X-MEDIA-SEQUENCE:").isPrefixOf (trimChars line)

/-! ### Variant selection (pick_lowest_variant_from_master, src/src/resolver/twitch.c) -/

/-- One parsed variant: uri, BANDWIDTH attribute (0 when absent) and the
height from RESOLUTION=WxH (0 when absent), as C ints. -/
structure TwVariant where
  uri : String
  bandwidth : Int
  height : Int
deriving DecidableEq, Repr

/-- C INT_MAX, the sentinel for an absent height. -/
def cIntMax : Int := 2147483647

/-- `list[i].height ? list[i].height : INT_MAX`. -/
def twEffHeight (v : TwVariant) : Int :=
  if v.height = 0 then cIntMax else v.height

/-- One iteration of the best-variant loop: the challenger wins on strictly
smaller effective height, or on an exact height tie when both bandwidths are
nonzero and the challenger's is strictly smaller. -/
def twPickStep (best cur : TwVariant) : TwVariant :=
  if twEffHeight cur < twEffHeight best then cur
  else if twEffHeight cur = twEffHeight best ∧ cur.bandwidth ≠ 0 ∧ best.bandwidth ≠ 0 ∧
      cur.bandwidth < best.bandwidth then cur
  else best

/-- The selection of pick_lowest_variant_from_master over an already parsed
variant list: none when the list is empty (`n == 0` returns NULL), otherwise
the fold of the loop starting from index 0. -/
def pick_lowest_variant : List TwVariant → Option TwVariant
  | [] => none
  | v :: rest => some (rest.foldl twPickStep v)

/-! ### Frame pacing and drop policy (main playback loops) -/

/-- The pacing state mutated once per decoded frame. last_frame_time is
uint64 microseconds; the counters are C ints (overflow is unreachable in the
scenarios below, so plain Int / Nat are used). -/
structure PacingState where
  skip_remaining : Int
  frames_displayed : Int
  frames_dropped : Int
  last_frame_time : Nat
deriving DecidableEq, Repr

/-- The outcome of one decoded-frame event. -/
inductive FrameOutcome where
  | displayed
  | dropped
deriving DecidableEq, Repr

/-- frame_duration_us = 33333 (~30 FPS). -/
def frame_duration_us : Nat := 33333

/-- One decoded-frame event in the src/src/main.c playback loop. `now` is
the get_time_us() reading that only gates the sleep (no state effect);
`now2` is the reading taken after the sleep and stored on display. The skip
branch drops the frame, decrements the counter and advances last_frame_time
by one frame duration ("advance timeline for skipped frame"). -/
def pacingStepMain (skipAmount : Int) (st : PacingState) (now now2 : Nat) :
    PacingState × FrameOutcome :=
  if 0 < skipAmount ∧ 0 < st.skip_remaining then
    ({ st with frames_dropped := st.frames_dropped + 1,
               skip_remaining := st.skip_remaining - 1,
               last_frame_time := st.last_frame_time + frame_duration_us }, .dropped)
  else
    ({ st with last_frame_time := now2,
               frames_displayed := st.frames_displayed + 1,
               skip_remaining := skipAmount }, .displayed)

/-- The same event in the src/unnamed/part_004 variant of the loop, whose
skip branch leaves last_frame_time untouched ("keep timing anchored to last
shown frame"). -/
def pacingStepAlt (skipAmount : Int) (st : PacingState) (now now2 : Nat) :
    PacingState × FrameOutcome :=
  if 0 < skipAmount ∧ 0 < st.skip_remaining then
    ({ st with frames_dropped := st.frames_dropped + 1,
               skip_remaining := st.skip_remaining - 1 }, .dropped)
  else
    ({ st with last_frame_time := now2,
               frames_displayed := st.frames_displayed + 1,
               skip_remaining := skipAmount }, .displayed)

/-- Folding a sequence of decoded-frame events (with their two clock
readings) through the src/src/main.c pacing step, collecting the outcomes. -/
def pacingRunMain (skipAmount : Int) : PacingState → List (Nat × Nat) →
    PacingState × List FrameOutcome
  | st, [] => (st, [])
  | st, t :: ts =>
    let r := pacingStepMain skipAmount st t.1 t.2
    let rest := pacingRunMain skipAmount r.1 ts
    (rest.1, r.2 :: rest.2)

/-! ### Playlist refresh loop (hls_process_stream, src/src/dmux/hls/hls_demuxer.c) -/

/-- One segment of a freshly parsed media playlist, together with the
outcome its fetch would have (`fetchOk` = download succeeded with a
non-empty body). -/
structure HlsSegSpec where
  url : String
  fetchOk : Bool
deriving DecidableEq, Repr

/-- The loop state carried across refresh iterations: `last_count` and
`last_processed_url`. -/
structure HlsLoopState where
  lastCount : Nat
  lastUrl : Option String
deriving DecidableEq, Repr

/-- The linear search for last_processed_url in the fresh segment list
(first match wins, as the C loop breaks). -/
def hlsFindIdx (u : String) : List HlsSegSpec → Option Nat
  | [] => none
  | s :: rest => if s.url = u then some 0 else (hlsFindIdx u rest).map (· + 1)

/-- The start-index computation of hls_process_stream: with a previously
processed URL, one past its first occurrence, or 0 when it is absent; with
no previous URL, the previous segment count; finally clamped to the segment
count. -/
def hlsStartIndex (st : HlsLoopState) (segs : List HlsSegSpec) : Nat :=
  let s :=
    match st.lastUrl with
    | some u =>
      match hlsFindIdx u segs with
      | some i => i + 1
      | none => 0
    | none => st.lastCount
  min s segs.length

/-- The per-iteration segment loop: a segment whose fetch failed (or was
empty) is skipped but still becomes last_processed_url; a successful fetch
invokes the consumer, and a nonzero consumer result stops the stream
(freeing last_processed_url). Returns (new last_processed_url, consumer
invocations in order, stop flag). URL resolution and the segment buffer
malloc are modelled as succeeding. -/
def hlsDispatchSegs (consumer : String → Bool) : Option String → List HlsSegSpec →
    Option String × List String × Bool
  | lastUrl, [] => (lastUrl, [], false)
  | _, s :: rest =>
    if s.fetchOk then
      if consumer s.url then (none, [s.url], true)
      else
        let r := hlsDispatchSegs consumer (some s.url) rest
        (r.1, s.url :: r.2.1, r.2.2)
    else hlsDispatchSegs consumer (some s.url) rest

/-- The outcome of one refresh iteration's playlist download + parse: a
fatal error (HLS_ERROR_MEMORY / HLS_ERROR_NETWORK / HLS_ERROR_PARSE), or the
freshly parsed segment list. -/
inductive HlsRefreshOutcome where
  | fetchErr (e : HlsError)
  | parsed (segs : List HlsSegSpec)
deriving DecidableEq, Repr

/-- How a modelled run of hls_process_stream ends: with the error returned
to the caller, or with HLS_OK (consumer stop, or end of the modelled finite
prefix of the infinite loop). -/
inductive HlsRunExit where
  | fatal (e : HlsError)
  | exitOk
deriving DecidableEq, Repr

/-- The refresh loop of hls_process_stream over a finite prefix of playlist
refresh outcomes. Returns the consumer invocation trace and the loop's exit
status. -/
def hlsRun (consumer : String → Bool) :
    List HlsRefreshOutcome → HlsLoopState → List String × HlsRunExit
  | [], _ => ([], .exitOk)
  | .fetchErr e :: _, _ => ([], .fatal e)
  | .parsed segs :: iters, st =>
    let start := hlsStartIndex st segs
    let d := hlsDispatchSegs consumer st.lastUrl (segs.drop start)
    if d.2.2 then (d.2.1, .exitOk)
    else
      let r := hlsRun consumer iters { lastCount := segs.length, lastUrl := d.1 }
      (d.2.1 ++ r.1, r.2)


/-! ### Helper lemmas -/

/-- An index returned by the last-processed-URL search is inside the list. -/
theorem hlsFindIdx_lt_length (u : String) :
    ∀ (segs : List HlsSegSpec) (i : Nat), hlsFindIdx u segs = some i → i < segs.length := by
  intro segs
  induction segs with
  | nil => intro i h; simp [hlsFindIdx] at h
  | cons s rest ih =>
    intro i h
    by_cases hs : s.url = u
    · simp only [hlsFindIdx, if_pos hs, Option.some.injEq] at h
      simp [← h]
    · simp only [hlsFindIdx, if_neg hs] at h
      rcases Option.map_eq_some'.mp h with ⟨j, hj, hji⟩
      have := ih j hj
      simp only [List.length_cons]
      omega

/-- Behaviour of one best-variant loop iteration: the result is one of the
two inputs, its effective height is the smaller one, ties are only taken on
strictly smaller nonzero bandwidth, and on an unchanged effective height the
incumbent is only displaced by a strictly smaller nonzero bandwidth. -/
theorem twPickStep_spec (a x : TwVariant) :
    (twPickStep a x = a ∨ twPickStep a x = x)
    ∧ twEffHeight (twPickStep a x) ≤ twEffHeight a
    ∧ twEffHeight (twPickStep a x) ≤ twEffHeight x
    ∧ (twEffHeight a = twEffHeight (twPickStep a x) → (twPickStep a x).bandwidth ≠ 0 →
        a.bandwidth ≠ 0 → (twPickStep a x).bandwidth ≤ a.bandwidth)
    ∧ (twEffHeight x = twEffHeight (twPickStep a x) → (twPickStep a x).bandwidth ≠ 0 →
        x.bandwidth ≠ 0 → (twPickStep a x).bandwidth ≤ x.bandwidth)
    ∧ (twEffHeight (twPickStep a x) = twEffHeight a →
        (twPickStep a x = a ∨ (a.bandwidth ≠ 0 ∧ (twPickStep a x).bandwidth ≠ 0 ∧
          (twPickStep a x).bandwidth < a.bandwidth))) := by
  unfold twPickStep
  split_ifs with h1 h2
  · refine ⟨Or.inr rfl, le_of_lt h1, le_refl _, ?_, fun _ _ _ => le_refl _, ?_⟩
    · intro hEq; exfalso; omega
    · intro hEq; exfalso; omega
  · obtain ⟨he, hx0, ha0, hlt⟩ := h2
    exact ⟨Or.inr rfl, le_of_eq he, le_refl _, fun _ _ _ => le_of_lt hlt,
      fun _ _ _ => le_refl _, fun _ => Or.inr ⟨ha0, hx0, hlt⟩⟩
  · refine ⟨Or.inl rfl, le_refl _, not_lt.mp h1, fun _ _ _ => le_refl _, ?_, fun _ => Or.inl rfl⟩
    intro hEq ha0 hx0
    by_contra hgt
    exact h2 ⟨hEq, hx0, ha0, by omega⟩

/-- The loop invariant of the best-variant fold: the accumulated best is one
of the variants seen so far, minimizes the effective height among them, has
the smallest bandwidth among nonzero-bandwidth variants tied at that height
(when its own bandwidth is nonzero), and at an unchanged effective height it
differs from the start value only through a chain of strictly
bandwidth-decreasing, nonzero tie-breaks. -/
theorem twPickFold_invariant :
    ∀ (l : List TwVariant) (a : TwVariant),
      (l.foldl twPickStep a = a ∨ l.foldl twPickStep a ∈ l)
      ∧ (twEffHeight (l.foldl twPickStep a) ≤ twEffHeight a
         ∧ ∀ u ∈ l, twEffHeight (l.foldl twPickStep a) ≤ twEffHeight u)
      ∧ ((twEffHeight a = twEffHeight (l.foldl twPickStep a) →
            (l.foldl twPickStep a).bandwidth ≠ 0 → a.bandwidth ≠ 0 →
            (l.foldl twPickStep a).bandwidth ≤ a.bandwidth)
         ∧ ∀ u ∈ l, twEffHeight u = twEffHeight (l.foldl twPickStep a) →
            (l.foldl twPickStep a).bandwidth ≠ 0 → u.bandwidth ≠ 0 →
            (l.foldl twPickStep a).bandwidth ≤ u.bandwidth)
      ∧ (twEffHeight (l.foldl twPickStep a) = twEffHeight a →
          (l.foldl twPickStep a = a ∨
            (a.bandwidth ≠ 0 ∧ (l.foldl twPickStep a).bandwidth ≠ 0 ∧
              (l.foldl twPickStep a).bandwidth < a.bandwidth))) := by
  intro l
  induction l with
  | nil =>
    intro a
    exact ⟨Or.inl rfl, ⟨le_refl _, by simp⟩, ⟨fun _ _ _ => le_refl _, by simp⟩,
      fun _ => Or.inl rfl⟩
  | cons x xs ih =>
    intro a
    have hfold : (x :: xs).foldl twPickStep a = xs.foldl twPickStep (twPickStep a x) := rfl
    obtain ⟨hbm, hba, hbx, htA, htX, hbT⟩ := twPickStep_spec a x
    obtain ⟨ihm, ⟨ihminb, ihminl⟩, ⟨ihtb, ihtl⟩, ihT⟩ := ih (twPickStep a x)
    rw [hfold]
    set b := twPickStep a x with hbdef
    set r := xs.foldl twPickStep b with hrdef
    have hra : twEffHeight r ≤ twEffHeight a := le_trans ihminb hba
    have hrx : twEffHeight r ≤ twEffHeight x := le_trans ihminb hbx
    refine ⟨?_, ⟨hra, ?_⟩, ⟨?_, ?_⟩, ?_⟩
    · rcases ihm with hrb | hrl
      · rcases hbm with hba2 | hbx2
        · exact Or.inl (hrb.trans hba2)
        · exact Or.inr (by rw [hrb, hbx2]; exact List.mem_cons_self x xs)
      · exact Or.inr (List.mem_cons_of_mem x hrl)
    · intro u hu
      rcases List.mem_cons.mp hu with rfl | hu2
      · exact hrx
      · exact ihminl u hu2
    · -- tie property relative to the start value a
      intro hEq hr0 ha0
      have hab : twEffHeight b = twEffHeight a := le_antisymm hba (by rw [hEq]; exact ihminb)
      have hbr : twEffHeight b = twEffHeight r := by rw [hab, hEq]
      rcases hbT hab with hbeq | ⟨_, hb0, hblt⟩
      · have h1 : r.bandwidth ≤ b.bandwidth := ihtb hbr hr0 (by rw [hbeq]; exact ha0)
        rw [hbeq] at h1
        exact h1
      · have h1 : r.bandwidth ≤ b.bandwidth := ihtb hbr hr0 hb0
        omega
    · -- tie property for every later element
      intro u hu hEq hr0 hu0
      rcases List.mem_cons.mp hu with rfl | hu2
      · -- the new head x itself
        have h1 : twEffHeight b = twEffHeight r :=
          le_antisymm (le_trans hbx (le_of_eq hEq)) ihminb
        have hxbEq : twEffHeight u = twEffHeight b := by rw [hEq, h1]
        by_cases hb0 : b.bandwidth = 0
        · rcases ihT h1.symm with hrb | ⟨hb02, _, _⟩
          · exact absurd (by rw [hrb]; exact hb0) hr0
          · exact absurd hb0 hb02
        · have h2 : r.bandwidth ≤ b.bandwidth := ihtb h1 hr0 hb0
          have h3 : b.bandwidth ≤ u.bandwidth := htX hxbEq hb0 hu0
          omega
      · exact ihtl u hu2 hEq hr0 hu0
    · -- the strictly-decreasing tie-break chain property
      intro hEq
      have hab : twEffHeight b = twEffHeight a := le_antisymm hba (by rw [← hEq]; exact ihminb)
      have hrb : twEffHeight r = twEffHeight b := by rw [hEq, hab]
      rcases ihT hrb with hrbEq | ⟨hb0, hr0, hrlt⟩
      · rcases hbT hab with hbeq | ⟨ha0, hb0, hblt⟩
        · exact Or.inl (hrbEq.trans hbeq)
        · exact Or.inr ⟨ha0, by rw [hrbEq]; exact hb0, by rw [hrbEq]; exact hblt⟩
      · rcases hbT hab with hbeq | ⟨ha0, hb02, hblt⟩
        · exact Or.inr ⟨by rw [← hbeq]; exact hb0, hr0, by rw [← hbeq]; exact hrlt⟩
        · exact Or.inr ⟨ha0, hr0, by omega⟩

/-! ### Claim theorems -/

/-- C1 (amended): on each refresh the dispatch start index is one past the
first occurrence of the previously dispatched segment URI in the fresh list;
when that URI is not found the start index is 0 (the whole fresh list is
dispatched again) — the previous-fetch segment-count fallback applies only
while no segment has ever been dispatched (clamped to the list length). For
the fetch sequence [A,B,C] then [B,C,D] the consumer is invoked for A, B, C,
D each exactly once, in that order. -/
theorem c1_refresh_dispatch :
    (hlsRun (fun _ => false)
      [.parsed [⟨"A", true⟩, ⟨"B", true⟩, ⟨"C", true⟩],
       .parsed [⟨"B", true⟩, ⟨"C", true⟩, ⟨"D", true⟩]]
      { lastCount := 0, lastUrl := none } = (["A", "B", "C", "D"], .exitOk))
    ∧ (∀ (st : HlsLoopState) (segs : List HlsSegSpec) (u : String) (i : Nat),
        st.lastUrl = some u → hlsFindIdx u segs = some i →
        hlsStartIndex st segs = i + 1)
    ∧ (∀ (st : HlsLoopState) (segs : List HlsSegSpec) (u : String),
        st.lastUrl = some u → hlsFindIdx u segs = none →
        hlsStartIndex st segs = 0)
    ∧ (∀ (k : Nat) (segs : List HlsSegSpec),
        hlsStartIndex { lastCount := k, lastUrl := none } segs = min k segs.length) := by
  refine ⟨by decide, ?_, ?_, ?_⟩
  · intro st segs u i h1 h2
    simp only [hlsStartIndex, h1, h2]
    exact Nat.min_eq_left (hlsFindIdx_lt_length u segs i h2)
  · intro st segs u h1 h2
    simp only [hlsStartIndex, h1, h2]
    exact Nat.zero_min _
  · intro k segs
    rfl

/-- Witness for C1: a concrete refresh where the previous URI "B" sits at
index 1 of the fresh list, so dispatch starts at index 2. -/
theorem c1_refresh_dispatch_witness :
    hlsStartIndex { lastCount := 1, lastUrl := some "B" }
      [⟨"A", true⟩, ⟨"B", true⟩, ⟨"C", true⟩] = 2 ∧
    hlsStartIndex { lastCount := 7, lastUrl := some "Z" } [⟨"A", true⟩] = 0 :=
  ⟨c1_refresh_dispatch.2.1 _ _ "B" 1 rfl (by decide),
   c1_refresh_dispatch.2.2.1 _ _ "Z" rfl (by decide)⟩

/-- Counterexample for C1 as stated: with previous count 3 and previous URI
"C" absent from the fresh 2-element list, the code starts at index 0 (the
claimed fallback would be the clamped previous count 2); consequently, for
the fetch sequence [A,B] then [C,A] the consumer is invoked for A twice. -/
theorem c1_refresh_dispatch_counterexample :
    hlsStartIndex { lastCount := 3, lastUrl := some "C" } [⟨"X", true⟩, ⟨"A", true⟩] = 0 ∧
    (0 : Nat) ≠ min 3 2 ∧
    hlsRun (fun _ => false)
      [.parsed [⟨"A", true⟩, ⟨"B", true⟩], .parsed [⟨"C", true⟩, ⟨"A", true⟩]]
      { lastCount := 0, lastUrl := none } = (["A", "B", "C", "A"], .exitOk) :=
  ⟨by decide, by decide, by decide⟩

/-- C3 (amended): on the Annex-B payload 00 00 01 67 AA 00 00 01 68 BB the
two-pass extraction emits exactly one NAL unit to the decoder — type 7 with
bytes 67 AA, surfaced in the parameter-set pass — because the next-start-code
scan stops once fewer than 4 bytes remain, which leaves the trailing NAL
68 BB with computed length 0, and zero-length NALs are dropped silently. -/
theorem c3_two_pass_extraction :
    twoPassNalDispatch [0, 0, 1, 0x67, 0xAA, 0, 0, 1, 0x68, 0xBB] = [[0x67, 0xAA]] ∧
    nalUnitType [0x67, 0xAA] = 7 ∧
    annexBScanNals [0, 0, 1, 0x67, 0xAA, 0, 0, 1, 0x68, 0xBB] = [[0x67, 0xAA]] :=
  ⟨by decide, by decide, by decide⟩

/-- Counterexample for C3 as stated: the extraction does not emit the two
claimed NAL units (type 7 then type 8); the second one is never produced. -/
theorem c3_two_pass_extraction_counterexample :
    ¬(twoPassNalDispatch [0, 0, 1, 0x67, 0xAA, 0, 0, 1, 0x68, 0xBB] =
        [[0x67, 0xAA], [0x68, 0xBB]]) := by
  decide

/-- C4: from skip_remaining = 0 with FRAMESKIP_AMOUNT = 3, eight decoded
frames in the src/src/main.c loop yield exactly 2 displayed and 6 dropped in
the pattern displayed, drop, drop, drop, displayed, drop, drop, drop; and
after every displayed frame skip_remaining is reset to the configured skip
amount. -/
theorem c4_pacing_pattern :
    (pacingRunMain 3
        { skip_remaining := 0, frames_displayed := 0, frames_dropped := 0, last_frame_time := 0 }
        (List.replicate 8 (0, 0)) =
      ({ skip_remaining := 0, frames_displayed := 2, frames_dropped := 6,
         last_frame_time := 99999 },
       [.displayed, .dropped, .dropped, .dropped, .displayed, .dropped, .dropped, .dropped]))
    ∧ (∀ (skipAmount : Int) (st : PacingState) (now now2 : Nat),
        (pacingStepMain skipAmount st now now2).2 = .displayed →
        (pacingStepMain skipAmount st now now2).1.skip_remaining = skipAmount) := by
  refine ⟨by decide, ?_⟩
  intro skipAmount st now now2 h
  unfold pacingStepMain at h ⊢
  by_cases hc : 0 < skipAmount ∧ 0 < st.skip_remaining
  · rw [if_pos hc] at h
    exact absurd h (by simp)
  · rw [if_neg hc]

/-- Witness for C4: a concrete displayed frame resets skip_remaining to 3. -/
theorem c4_pacing_pattern_witness :
    (pacingStepMain 3
      { skip_remaining := 0, frames_displayed := 0, frames_dropped := 0, last_frame_time := 0 }
      0 0).1.skip_remaining = 3 :=
  c4_pacing_pattern.2 3 _ 0 0 (by decide)

/-- C5 (amended): while skip_remaining > 0 a decoded frame is dropped, not
rendered: the dropped-count is incremented, skip_remaining is decremented
and frames_displayed is untouched in both playback-loop variants; but
last_frame_time is advanced by one frame duration in the src/src/main.c loop
(its comment: advance the playback clock so skipped frames are not shown as
catch-up), and left unchanged only in the src/unnamed/part_004 variant. -/
theorem c5_skip_branch_effects :
    ∀ (skipAmount : Int) (st : PacingState) (now now2 : Nat),
      0 < skipAmount → 0 < st.skip_remaining →
      pacingStepMain skipAmount st now now2 =
        ({ st with frames_dropped := st.frames_dropped + 1,
                   skip_remaining := st.skip_remaining - 1,
                   last_frame_time := st.last_frame_time + frame_duration_us }, .dropped)
      ∧ pacingStepAlt skipAmount st now now2 =
        ({ st with frames_dropped := st.frames_dropped + 1,
                   skip_remaining := st.skip_remaining - 1 }, .dropped) := by
  intro skipAmount st now now2 h1 h2
  constructor
  · unfold pacingStepMain
    rw [if_pos ⟨h1, h2⟩]
  · unfold pacingStepAlt
    rw [if_pos ⟨h1, h2⟩]

/-- Witness for C5: the two skip branches at a concrete state. -/
theorem c5_skip_branch_effects_witness :
    pacingStepMain 3
      { skip_remaining := 2, frames_displayed := 1, frames_dropped := 0, last_frame_time := 50 }
      0 0 =
      ({ skip_remaining := 1, frames_displayed := 1, frames_dropped := 1,
         last_frame_time := 50 + frame_duration_us }, .dropped) ∧
    pacingStepAlt 3
      { skip_remaining := 2, frames_displayed := 1, frames_dropped := 0, last_frame_time := 50 }
      0 0 =
      ({ skip_remaining := 1, frames_displayed := 1, frames_dropped := 1,
         last_frame_time := 50 }, .dropped) :=
  c5_skip_branch_effects 3 _ 0 0 (by decide) (by decide)

/-- Counterexample for C5 as stated: in the src/src/main.c loop a dropped
frame does change last_frame_time — it moves from 0 to 33333. -/
theorem c5_skip_branch_effects_counterexample :
    (pacingStepMain 3
      { skip_remaining := 1, frames_displayed := 0, frames_dropped := 0, last_frame_time := 0 }
      0 0).1.last_frame_time = 33333 ∧
    (33333 : Nat) ≠ 0 :=
  ⟨by decide, by decide⟩

/-- C9: a failed playlist fetch is fatal — the refresh loop stops and hands
that error to the caller — while a segment whose fetch failed is skipped
(the consumer is not invoked for it, it still becomes last_processed_url)
and the loop continues with the remaining segments. -/
theorem c9_fetch_failure_policy :
    (∀ (c : String → Bool) (e : HlsError) (iters : List HlsRefreshOutcome) (st : HlsLoopState),
        hlsRun c (.fetchErr e :: iters) st = ([], .fatal e))
    ∧ (∀ (c : String → Bool) (lu : Option String) (s : HlsSegSpec) (rest : List HlsSegSpec),
        s.fetchOk = false →
        hlsDispatchSegs c lu (s :: rest) = hlsDispatchSegs c (some s.url) rest) := by
  refine ⟨fun c e iters st => rfl, ?_⟩
  intro c lu s rest h
  cases rest <;> simp [hlsDispatchSegs, h]

/-- Witness for C9: a concrete fatal playlist fetch and a concrete skipped
segment fetch followed by a dispatched one. -/
theorem c9_fetch_failure_policy_witness :
    hlsRun (fun _ => false) [.fetchErr .network, .parsed [⟨"A", true⟩]]
      { lastCount := 0, lastUrl := none } = ([], .fatal .network) ∧
    hlsDispatchSegs (fun _ => false) none [⟨"bad", false⟩, ⟨"good", true⟩] =
      hlsDispatchSegs (fun _ => false) (some "bad") [⟨"good", true⟩] :=
  ⟨c9_fetch_failure_policy.1 _ .network _ _,
   c9_fetch_failure_policy.2 _ none ⟨"bad", false⟩ _ rfl⟩

/-- C10: hls_parse_playlist_from_memory returns HLS_ERROR_PARSE exactly when
its data or playlist argument is NULL; every non-NULL input text — whatever
its content — parses with HLS_OK (allocation failures, which the C code maps
to HLS_ERROR_MEMORY, are modelled as succeeding). -/
theorem c10_parse_error_only_on_null :
    (∀ (data base : Option (List Char)) (pl : Option HlsPlaylist),
        ((hls_parse_playlist_from_memory data base pl).1 = .parse ↔
          (data = none ∨ pl = none)))
    ∧ (∀ (text : List Char) (base : Option (List Char)) (pl : HlsPlaylist),
        (hls_parse_playlist_from_memory (some text) base (some pl)).1 = .ok) := by
  constructor
  · intro data base pl
    match data, pl with
    | none, pl => simp [hls_parse_playlist_from_memory]
    | some t, none => simp [hls_parse_playlist_from_memory]
    | some t, some pl => simp [hls_parse_playlist_from_memory]
  · intro text base pl
    rfl

/-- Witness for C10: NULL data is a parse error; a non-playlist text is
accepted with HLS_OK. -/
theorem c10_parse_error_only_on_null_witness :
    (hls_parse_playlist_from_memory none none (some hls_playlist_create)).1 = .parse ∧
    (hls_parse_playlist_from_memory (some (tagChars "not a playlist at all"))
      none (some hls_playlist_create)).1 = .ok :=
  ⟨(c10_parse_error_only_on_null.1 none none (some hls_playlist_create)).mpr (Or.inl rfl),
   c10_parse_error_only_on_null.2 (tagChars "not a playlist at all") none hls_playlist_create⟩

/-- A non-baseline SPS of length at least 4 always parses to the fixed
1920x1080 fallback with a valid SPS flag. -/
theorem parse_sps_nonbaseline (dec : SimpleH264Decoder) (data : List Nat)
    (h4 : 4 ≤ data.length) (hp : data.getD 1 0 ≠ 66) :
    parse_sps dec data =
      ({ dec with profile_idc := data.getD 1 0, level_idc := data.getD 3 0,
                  width := 1920, height := 1080, sps_valid := true }, true) := by
  unfold parse_sps
  rw [if_neg (by omega)]
  simp only [if_neg hp]

/-- A NAL byte list whose computed type is nonzero is non-empty. -/
theorem nal_type_nonzero_nonempty (data : List Nat) (k : Nat)
    (hk : simple_h264_get_nal_type data = k) (h0 : k ≠ 0) : ¬ data.length = 0 := by
  intro hl
  rw [List.length_eq_zero] at hl
  subst hl
  simp [simple_h264_get_nal_type] at hk
  omega

/-- C2 (amended): with the SPS or the PPS still invalid, decoding a slice NAL
(type 1 or 5) returns ParamSetError, leaves the decoder unchanged and emits
no FrameReady; and after an SPS that parse_sps accepts with positive
dimensions — here any SPS of length at least 4 whose profile byte is not the
baseline value 66 — followed by a PPS (type 8), decoding the slice returns
FrameReady. (An SPS shorter than 4 bytes is rejected and leaves the SPS
invalid, and a crafted baseline SPS can parse to width 0; in both cases the
subsequent slice does not return FrameReady — see the counterexample.) -/
theorem c2_param_set_gating :
    (∀ (dec : SimpleH264Decoder) (data : List Nat) (fp : Bool),
        (simple_h264_get_nal_type data = 1 ∨ simple_h264_get_nal_type data = 5) →
        (dec.sps_valid = false ∨ dec.pps_valid = false) →
        simple_h264_decode dec data fp = (dec, .paramSetError))
    ∧ (∀ (dec : SimpleH264Decoder) (sps pps slice : List Nat),
        simple_h264_get_nal_type sps = 7 → 4 ≤ sps.length → sps.getD 1 0 ≠ 66 →
        simple_h264_get_nal_type pps = 8 →
        (simple_h264_get_nal_type slice = 1 ∨ simple_h264_get_nal_type slice = 5) →
        (simple_h264_decode dec sps true).2 = .headersReady ∧
        (simple_h264_decode (simple_h264_decode dec sps true).1 pps true).2 = .headersReady ∧
        (simple_h264_decode
          (simple_h264_decode (simple_h264_decode dec sps true).1 pps true).1
          slice true).2 = .frameReady) := by
  constructor
  · intro dec data fp ht hnv
    have hne : ¬ data.length = 0 := by
      rcases ht with h | h
      · exact nal_type_nonzero_nonempty data 1 h (by omega)
      · exact nal_type_nonzero_nonempty data 5 h (by omega)
    have h7 : ¬ simple_h264_get_nal_type data = 7 := by rcases ht with h | h <;> omega
    have h8 : ¬ simple_h264_get_nal_type data = 8 := by rcases ht with h | h <;> omega
    have hvv : ¬(dec.sps_valid = true ∧ dec.pps_valid = true) := by
      rcases hnv with h | h <;> simp [h]
    simp only [simple_h264_decode, if_neg hne, if_neg h7, if_neg h8,
      if_pos (Or.symm ht), if_neg hvv]
  · intro dec sps pps slice h7 h4 hp h8 hsl
    have hsne : ¬ sps.length = 0 := by omega
    have hsps : simple_h264_decode dec sps true =
        ({ dec with profile_idc := sps.getD 1 0, level_idc := sps.getD 3 0,
                    width := 1920, height := 1080, sps_valid := true }, .headersReady) := by
      simp only [simple_h264_decode, if_neg hsne, if_pos h7,
        parse_sps_nonbaseline dec sps h4 hp]
      rfl
    have hpne : ¬ pps.length = 0 := nal_type_nonzero_nonempty pps 8 h8 (by omega)
    have h87 : ¬ simple_h264_get_nal_type pps = 7 := by omega
    have hpps : ∀ d : SimpleH264Decoder,
        simple_h264_decode d pps true = ({ d with pps_valid := true }, .headersReady) := by
      intro d
      simp only [simple_h264_decode, if_neg hpne, if_neg h87, if_pos h8, parse_pps]
      rfl
    have hslne : ¬ slice.length = 0 := by
      rcases hsl with h | h
      · exact nal_type_nonzero_nonempty slice 1 h (by omega)
      · exact nal_type_nonzero_nonempty slice 5 h (by omega)
    have hs7 : ¬ simple_h264_get_nal_type slice = 7 := by rcases hsl with h | h <;> omega
    have hs8 : ¬ simple_h264_get_nal_type slice = 8 := by rcases hsl with h | h <;> omega
    refine ⟨by rw [hsps], by rw [hsps, hpps], ?_⟩
    rw [hsps, hpps]
    simp only [simple_h264_decode, if_neg hslne, if_neg hs7, if_neg hs8,
      if_pos (Or.symm hsl)]
    simp

/-- Witness for C2: a slice against the fresh decoder is gated, and the
SPS (profile 100), PPS, slice sequence produces a frame. -/
theorem c2_param_set_gating_witness :
    simple_h264_decode simple_h264_create [0x65, 0x88] true =
      (simple_h264_create, .paramSetError) ∧
    (simple_h264_decode
      (simple_h264_decode
        (simple_h264_decode simple_h264_create [0x67, 0x64, 0x00, 0x1e] true).1
        [0x68] true).1
      [0x65, 0x88] true).2 = .frameReady :=
  ⟨c2_param_set_gating.1 simple_h264_create [0x65, 0x88] true (by decide) (by decide),
   (c2_param_set_gating.2 simple_h264_create [0x67, 0x64, 0x00, 0x1e] [0x68] [0x65, 0x88]
      (by decide) (by decide) (by decide) (by decide) (by decide)).2.2⟩

/-- Counterexample for C2 as stated: a one-byte SPS NAL (type 7) fails
parse_sps, so SPS, PPS, slice yields ParamSetError and not FrameReady; and a
crafted baseline SPS parses to width 0 (uint32 wrap of (2^24) * 16), after
which the slice yields Ok and not FrameReady. -/
theorem c2_param_set_gating_counterexample :
    ((simple_h264_decode
        (simple_h264_decode (simple_h264_decode simple_h264_create [0x67] true).1
          [0x68] true).1
        [0x65] true).2 = .paramSetError ∧
      ¬ (simple_h264_decode
        (simple_h264_decode (simple_h264_decode simple_h264_create [0x67] true).1
          [0x68] true).1
        [0x65] true).2 = .frameReady)
    ∧ ((simple_h264_decode
          (simple_h264_decode
            (simple_h264_decode simple_h264_create
              [0x67, 0x42, 0x00, 0x1e, 0x80, 0x00, 0x00, 0x00, 0x08, 0x00, 0x00, 0x00, 0x00]
              true).1
            [0x68] true).1
          [0x65] true).2 = .ok ∧
        (simple_h264_decode simple_h264_create
          [0x67, 0x42, 0x00, 0x1e, 0x80, 0x00, 0x00, 0x00, 0x08, 0x00, 0x00, 0x00, 0x00]
          true).1.width = 0) :=
  ⟨⟨by decide, by decide⟩, by decide, by decide⟩

/-- C6 (amended): the TS demux path is taken exactly when the buffer holds
at least 188 bytes and begins with the sync byte 0x47; the three-packet
heuristic scan only chooses the sync offset inside that path, defaulting to
offset 0 when no offset qualifies. Buffers failing the entry test are handed
to the raw Annex-B NAL extraction fallback, never reported as a TS error. -/
theorem c6_ts_routing :
    (∀ seg : List Nat,
        (segmentRoute seg = .rawAnnexB ↔ (seg.length < 188 ∨ seg.getD 0 0 ≠ 0x47)))
    ∧ (∀ seg : List Nat, 188 ≤ seg.length → seg.getD 0 0 = 0x47 →
        segmentRoute seg = .tsDemux (tsSyncOffset seg)) := by
  constructor
  · intro seg
    unfold segmentRoute
    split_ifs with h
    · constructor
      · intro hr
        simp at hr
      · intro hr
        rcases h with ⟨h1, h2⟩
        rcases hr with h3 | h3
        · omega
        · exact absurd h2 h3
    · constructor
      · intro _
        by_contra hc
        push_neg at hc
        exact h ⟨by omega, hc.2⟩
      · intro _
        rfl
  · intro seg h1 h2
    unfold segmentRoute
    rw [if_pos ⟨h1, h2⟩]

set_option maxRecDepth 8000 in
/-- Witness for C6: the empty buffer goes to the raw fallback; a 188-byte
buffer starting with 0x47 goes to the TS demux path. -/
theorem c6_ts_routing_witness :
    segmentRoute [] = .rawAnnexB ∧
    segmentRoute (0x47 :: List.replicate 187 0) =
      .tsDemux (tsSyncOffset (0x47 :: List.replicate 187 0)) :=
  ⟨(c6_ts_routing.1 []).mpr (Or.inl (by decide)),
   c6_ts_routing.2 _ (by decide) (by decide)⟩

set_option maxRecDepth 8000 in
/-- Counterexample for C6 as stated: a 188-byte buffer whose first byte is
0x47 but in which no offset satisfies the three-packet heuristic is still
demultiplexed as MPEG-TS (at offset 0), not treated as raw bytes. -/
theorem c6_ts_routing_counterexample :
    segmentRoute (0x47 :: List.replicate 187 0) = .tsDemux 0 ∧
    tsSyncFound (0x47 :: List.replicate 187 0) = false :=
  ⟨by decide, by decide⟩

/-- Prefixes of a common list are comparable, so two literals that are not
prefixes of one another cannot both be prefixes of the same line. -/
theorem pfxExclusive {a b t : List Char} (hab : a.isPrefixOf b = false)
    (hba : b.isPrefixOf a = false) (hat : a.isPrefixOf t = true) :
    b.isPrefixOf t = false := by
  by_contra hbt
  rw [Bool.not_eq_false] at hbt
  have h1 := List.isPrefixOf_iff_prefix.mp hat
  have h2 := List.isPrefixOf_iff_prefix.mp hbt
  rcases List.prefix_or_prefix_of_prefix h1 h2 with hc | hc
  · rw [List.isPrefixOf_iff_prefix.mpr hc] at hab
    simp at hab
  · rw [List.isPrefixOf_iff_prefix.mpr hc] at hba
    simp at hba

/-- C7 (amended): the playlist kind after processing a line is determined by
the last kind-setting tag: an #EXT-X-STREAM-INF: line always sets Master —
even when the kind was already Media — the #EXTINF:, #EXT-X-TARGETDURATION:
and #EXT-X-MEDIA-SEQUENCE: tags set Media, and every other line leaves the
kind unchanged. -/
theorem c7_kind_last_tag_wins :
    ∀ (acc : ParseAcc) (line : List Char),
      (parsePlaylistLine acc line).pl.type =
        (if lineSetsMaster line then .master
         else if lineSetsMedia line then .media
         else acc.pl.type) := by
  intro acc line
  by_cases h1 : (tagChars "#EXTM3U").isPrefixOf (trimChars line) = true
  · have e2 : (tagChars "#EXT-X-STREAM-INF:").isPrefixOf (trimChars line) = false :=
      pfxExclusive (by decide) (by decide) h1
    have e3 : (tagChars "#EXTINF:").isPrefixOf (trimChars line) = false :=
      pfxExclusive (by decide) (by decide) h1
    have e4 : (tagChars "#EXT-X-TARGETDURATION:").isPrefixOf (trimChars line) = false :=
      pfxExclusive (by decide) (by decide) h1
    have e5 : (tagChars "#EXT-X-MEDIA-SEQUENCE:").isPrefixOf (trimChars line) = false :=
      pfxExclusive (by decide) (by decide) h1
    simp [parsePlaylistLine, lineSetsMaster, lineSetsMedia, h1, e2, e3, e4, e5]
  · by_cases h2 : (tagChars "#EXT-X-STREAM-INF:").isPrefixOf (trimChars line) = true
    · simp [parsePlaylistLine, lineSetsMaster, lineSetsMedia, h1, h2]
    · by_cases h3 : (tagChars "#EXTINF:").isPrefixOf (trimChars line) = true
      · simp [parsePlaylistLine, lineSetsMaster, lineSetsMedia, h1, h2, h3]
      · by_cases h4 : (tagChars "#EXT-X-TARGETDURATION:").isPrefixOf (trimChars line) = true
        · simp [parsePlaylistLine, lineSetsMaster, lineSetsMedia, h1, h2, h3, h4]
        · by_cases h5 : (tagChars "#EXT-X-MEDIA-SEQUENCE:").isPrefixOf (trimChars line) = true
          · simp [parsePlaylistLine, lineSetsMaster, lineSetsMedia, h1, h2, h3, h4, h5]
          · simp only [parsePlaylistLine, lineSetsMaster, lineSetsMedia, h1, h2, h3, h4, h5,
              Bool.false_eq_true, if_false, Bool.or_self]
            split
            · rfl
            · split_ifs <;> rfl

set_option maxRecDepth 8000 in
/-- Counterexample for C7 as stated: parsing the prefix text "#EXTINF:2.0,"
leaves the kind Media, but parsing the longer text with a following
#EXT-X-STREAM-INF: line ends with kind Master — during that parse the kind
reverted from Media to Master. -/
theorem c7_kind_counterexample :
    (hls_parse_playlist_from_memory (some (tagChars "#EXTINF:2.0,\n")) none
        (some hls_playlist_create)).2.map HlsPlaylist.type = some .media ∧
    (hls_parse_playlist_from_memory
        (some (tagChars "#EXTINF:2.0,\n#EXT-X-STREAM-INF:BANDWIDTH=1\n")) none
        (some hls_playlist_create)).2.map HlsPlaylist.type = some .master ∧
    (parsePlaylistLine
      (parsePlaylistLine { pl := hls_playlist_create, curDuration := .zero }
        (tagChars "#EXTINF:2.0,"))
      (tagChars "#EXT-X-STREAM-INF:BANDWIDTH=1")).pl.type = .master :=
  ⟨by decide, by decide, by decide⟩

/-- C8: variant selection returns a variant of the list whose effective
height (absent height = INT_MAX) is minimal; among variants tied at that
height whose bandwidth is nonzero, the chosen bandwidth is minimal whenever
the chosen variant's own bandwidth is nonzero; and a variant with zero
(absent) bandwidth never displaces the incumbent in a tie-break. Selection
is a pure function of the variant list, hence deterministic and idempotent. -/
theorem c8_variant_selection (v : TwVariant) (rest : List TwVariant) :
    pick_lowest_variant (v :: rest) = some (rest.foldl twPickStep v)
    ∧ rest.foldl twPickStep v ∈ v :: rest
    ∧ (∀ u ∈ v :: rest, twEffHeight (rest.foldl twPickStep v) ≤ twEffHeight u)
    ∧ (∀ u ∈ v :: rest, twEffHeight u = twEffHeight (rest.foldl twPickStep v) →
        (rest.foldl twPickStep v).bandwidth ≠ 0 → u.bandwidth ≠ 0 →
        (rest.foldl twPickStep v).bandwidth ≤ u.bandwidth)
    ∧ (∀ best cur : TwVariant, twEffHeight cur = twEffHeight best →
        (cur.bandwidth = 0 ∨ best.bandwidth = 0) → twPickStep best cur = best) := by
  obtain ⟨hm, ⟨hminb, hminl⟩, ⟨htb, htl⟩, _⟩ := twPickFold_invariant rest v
  refine ⟨rfl, ?_, ?_, ?_, ?_⟩
  · rcases hm with h | h
    · rw [h]
      exact List.mem_cons_self v rest
    · exact List.mem_cons_of_mem v h
  · intro u hu
    rcases List.mem_cons.mp hu with rfl | hu2
    · exact hminb
    · exact hminl u hu2
  · intro u hu hEq hw0 hu0
    rcases List.mem_cons.mp hu with rfl | hu2
    · exact htb hEq hw0 hu0
    · exact htl u hu2 hEq hw0 hu0
  · intro best cur hEq h0
    unfold twPickStep
    have hlt : ¬ twEffHeight cur < twEffHeight best := by omega
    have hcond : ¬(twEffHeight cur = twEffHeight best ∧ cur.bandwidth ≠ 0 ∧
        best.bandwidth ≠ 0 ∧ cur.bandwidth < best.bandwidth) := by
      rintro ⟨_, hc, hb, _⟩
      rcases h0 with h | h
      · exact hc h
      · exact hb h
    rw [if_neg hlt, if_neg hcond]

/-- Witness for C8: with variants (bw 5, h 360) and (bw 3, h 720) the lower
height wins; and a zero-bandwidth challenger never wins a height tie. -/
theorem c8_variant_selection_witness :
    pick_lowest_variant [⟨"lo", 5, 360⟩, ⟨"hi", 3, 720⟩] =
      some (List.foldl twPickStep ⟨"lo", 5, 360⟩ [⟨"hi", 3, 720⟩]) ∧
    twEffHeight (List.foldl twPickStep ⟨"lo", 5, 360⟩ [⟨"hi", 3, 720⟩]) ≤
      twEffHeight ⟨"hi", 3, 720⟩ ∧
    twPickStep ⟨"a", 5, 360⟩ ⟨"b", 0, 360⟩ = ⟨"a", 5, 360⟩ :=
  ⟨(c8_variant_selection ⟨"lo", 5, 360⟩ [⟨"hi", 3, 720⟩]).1,
   (c8_variant_selection ⟨"lo", 5, 360⟩ [⟨"hi", 3, 720⟩]).2.2.1 _ (by simp),
   (c8_variant_selection ⟨"lo", 5, 360⟩ []).2.2.2.2 ⟨"a", 5, 360⟩ ⟨"b", 0, 360⟩
     (by decide) (Or.inl (by decide))⟩
